import Mathlib

/-!
Shallow embedding of the LinkedIn auto-applier's job pipeline
(`modules/automation/apply_linkedin.py`, `modules/automation/scraper.py`,
`modules/logger.py`, `modules/ai/resume_rewriter.py`).

Browser interaction is abstracted: everything the page would show for one
posting (title, company, about-company text, description text, which apply
affordances exist and whether they succeed) is packaged as fields of a `Job`
value, and the pure decision/ledger logic of the Python code is translated
directly.  Text is modelled as `String` with ASCII case folding (Python's
`str.lower` restricted to ASCII, which covers every configured word and every
literal the code compares against).
-/

namespace AutoJobApplier

/-! ### String helpers mirroring the Python primitives used by the code -/

/-- Python's whitespace class `\s` (ASCII part). -/
def pyIsSpace (c : Char) : Bool :=
  c = ' ' || c = '\t' || c = '\n' || c = '\r' || c = '\x0b' || c = '\x0c'

/-- Python `str.lower()` (ASCII case folding). -/
def lowerStr (s : String) : String :=
  ⟨s.data.map Char.toLower⟩

/-- List-level "starts with" used to implement substring search. -/
def isPrefixL : List Char → List Char → Bool
  | [], _ => true
  | _ :: _, [] => false
  | a :: as, b :: bs => a = b && isPrefixL as bs

/-- List-level substring occurrence (Python `needle in hay` on `str`). -/
def substrL (needle : List Char) : List Char → Bool
  | [] => needle.isEmpty
  | c :: rest => isPrefixL needle (c :: rest) || substrL needle rest

/-- Python `needle in hay` for strings. -/
def containsSub (hay needle : String) : Bool :=
  substrL needle.data hay.data

/-- Python `str.isdigit()` (ASCII): non-empty and all digits. -/
def isdigitStr (s : String) : Bool :=
  !s.data.isEmpty && s.data.all Char.isDigit

/-- Python `url.rstrip("/")`. -/
def rstripSlashes (s : String) : String :=
  ⟨(s.data.reverse.dropWhile (fun c => c = '/')).reverse⟩

/-- Python `str.rstrip()` (strip trailing whitespace). -/
def rstripWS (s : String) : String :=
  ⟨(s.data.reverse.dropWhile pyIsSpace).reverse⟩

/-- Worker for Python `str.split(sep)` (always returns a non-empty list). -/
def splitAux (sep : Char) : List Char → List Char → List (List Char)
  | [], acc => [acc.reverse]
  | c :: rest, acc =>
    if c = sep then acc.reverse :: splitAux sep rest []
    else splitAux sep rest (c :: acc)

/-- Python `url.rstrip("/").split("/")[-1]`: the trailing path segment. -/
def lastSegment (s : String) : String :=
  ⟨(splitAux '/' (rstripSlashes s).data []).getLastD []⟩

/-- Python `int` on a string of digits. -/
def digitsToNat (ds : List Char) : Nat :=
  ds.foldl (fun n c => n * 10 + (c.toNat - 48)) 0

/-! ### The experience regex of `scraper.py`

`re_experience = re.compile(r"[(]?\s*(\d+)\s*[)]?\s*[-to]*\s*\d*[+]*\s*year[s]?", re.IGNORECASE)`

The pattern is a plain concatenation of character-class quantifiers followed by
the literal `year[s]?`; adjacent classes are over disjoint alphabets and no
class contains `y`, so Python's backtracking search coincides with maximal
munch, which is what `matchExperienceAt` implements.  `re.findall` scans
positions left to right and resumes after each (non-empty) match. -/

/-- One optional character (`X?`). -/
def dropOptChar (p : Char → Bool) : List Char → List Char
  | [] => []
  | c :: rest => if p c then rest else c :: rest

/-- The class `[-to]` under `IGNORECASE`. -/
def isDashTO (c : Char) : Bool :=
  c = '-' || c.toLower = 't' || c.toLower = 'o'

/-- Try to match `re_experience` at the start of `cs`; on success return the
captured group (as a number) and the rest of the input after the match. -/
def matchExperienceAt (cs : List Char) : Option (Nat × List Char) :=
  let s1 := dropOptChar (fun c => c = '(') cs
  let s2 := s1.dropWhile pyIsSpace
  let digits := s2.takeWhile Char.isDigit
  if digits.isEmpty then none
  else
    let s3 := (s2.dropWhile Char.isDigit).dropWhile pyIsSpace
    let s4 := dropOptChar (fun c => c = ')') s3
    let s5 := ((s4.dropWhile pyIsSpace).dropWhile isDashTO).dropWhile pyIsSpace
    let s6 := ((s5.dropWhile Char.isDigit).dropWhile (fun c => c = '+')).dropWhile pyIsSpace
    match s6 with
    | y :: e :: a :: r :: rest =>
      if y.toLower = 'y' && e.toLower = 'e' && a.toLower = 'a' && r.toLower = 'r' then
        some (digitsToNat digits, dropOptChar (fun c => c.toLower = 's') rest)
      else none
    | _ => none

/-- `re.findall` driver (fuelled; every step consumes at least one character,
so `cs.length` steps of fuel always suffice). -/
def findNumsAux : Nat → List Char → List Nat
  | 0, _ => []
  | _ + 1, [] => []
  | fuel + 1, c :: rest =>
    match matchExperienceAt (c :: rest) with
    | some (n, remaining) => n :: findNumsAux fuel remaining
    | none => findNumsAux fuel rest

/-- All captured groups of `re.findall(re_experience, text)`, as numbers. -/
def findExperienceNums (text : String) : List Nat :=
  findNumsAux text.data.length text.data

/-- `scraper.extract_years_of_experience`.  Python raises `ValueError` when
matches exist but every one exceeds 40 (`max` of an empty sequence); that
exception is modelled as `Except.error ()`. -/
def extract_years_of_experience (text : String) : Except Unit Nat :=
  let found := findExperienceNums text
  if found.isEmpty then .ok 0
  else
    let valid := found.filter (fun n => n ≤ 40)
    if valid.isEmpty then .error ()
    else .ok (valid.foldl Nat.max 0)

/-! ### `scraper.get_job_description` -/

/-- Result tuple of `get_job_description`.  `none` in the first two fields is
the Python sentinel `"Unknown"`. -/
structure DescResult where
  job_description : Option String
  experience_required : Option Nat
  skip : Bool
  skip_reason : Option String
  skip_message : Option String
deriving DecidableEq, Repr

/-- The hard-coded clearance terms of `get_job_description`. -/
def clearance_terms : List String := ["polygraph", "clearance", "secret"]

/-- `scraper.get_job_description`, with the browser fetch abstracted into the
`desc` argument (`none` = the description container was not found, so the
whole `try` body is skipped by the `except` handler).  A `ValueError` escaping
`extract_years_of_experience` likewise jumps to the handler, leaving
`experience_required` at `"Unknown"` and the earlier skip decision intact. -/
def get_job_description (desc : Option String) (bad_words : List String)
    (security_clearance_required : Bool) (did_masters : Bool)
    (current_experience : Int) : DescResult :=
  match desc with
  | none => ⟨none, none, false, none, none⟩
  | some d =>
    let low := lowerStr d
    let badHit := bad_words.find? (fun w => containsSub low (lowerStr w))
    let st1 : Bool × Option String × Option String :=
      match badHit with
      | some w =>
        (true, some "Found bad word in job description",
          some ("Job description contains blacklisted word \"" ++ w ++ "\". Skipping job."))
      | none => (false, none, none)
    let st2 : Bool × Option String × Option String :=
      if !st1.1 && !security_clearance_required
          && clearance_terms.any (fun t => containsSub low t) then
        (true, some "Security clearance required",
          some "Security clearance requirement detected. Skipping job.")
      else st1
    let found_masters : Int :=
      if !st2.1 && did_masters && containsSub low "master" then 2 else 0
    match extract_years_of_experience d with
    | .error _ => ⟨some d, none, st2.1, st2.2.1, st2.2.2⟩
    | .ok n =>
      if !st2.1 && decide (current_experience > -1)
          && decide ((n : Int) > current_experience + found_masters) then
        ⟨some d, some n, true, some "Required experience too high",
          some ("Experience required (" ++ toString n ++ ") exceeds configured limit.")⟩
      else ⟨some d, some n, st2.1, st2.2.1, st2.2.2⟩

/-! ### `modules/logger.py`: the CSV ledger -/

/-- One CSV row of `success.csv` / `failure.csv` (timestamp omitted: it is
wall-clock noise that no consumer in the code reads back). -/
structure LedgerRow where
  job_title : String
  company : String
  job_url : String
  applied : Bool
  resume_path : String
  error_message : String
deriving DecidableEq, Repr

/-- `AutomationLogger.log_success` row payload. -/
def mkSuccessRow (title company url : String) (resume : Option String) : LedgerRow :=
  ⟨title, company, url, true, resume.getD "", ""⟩

/-- `AutomationLogger.log_failure` row payload. -/
def mkFailureRow (title company url err : String) (resume : Option String) : LedgerRow :=
  ⟨title, company, url, false, resume.getD "", err⟩

/-- `LinkedInApplier._load_previous_applications`: scan the success ledger and
keep the trailing path segment of each `job_url` when it is purely numeric. -/
def load_previous_applications (success_rows : List LedgerRow) : List String :=
  (success_rows.filter
      (fun r => decide (r.job_url ≠ "") && isdigitStr (lastSegment r.job_url))).map
    (fun r => lastSegment r.job_url)

/-- The ledger membership check of spec section 4.3: a prior success entry for
this job identifier exists once the ledger is reloaded. -/
def wasApplied (success_rows : List LedgerRow) (job_id : String) : Bool :=
  decide (job_id ∈ load_previous_applications success_rows)

/-! ### Configuration and per-posting page data -/

/-- The slice of `config.search` read by the pipeline. -/
structure SearchConfig where
  bad_words : List String
  about_company_bad_words : List String
  about_company_good_words : List String
  search_terms : List String
  job_titles : List String
  security_clearance : Bool
  did_masters : Bool
  current_experience : Int
deriving DecidableEq, Repr

/-- Everything the page shows for one posting, plus how the browser-driven
apply steps would turn out for it.  `description = none` means the
description container is not found; `easy_apply_submits` is whether the
Easy-Apply modal's final submit becomes clickable; `external_link = none`
means capturing the external application link raises. -/
structure Job where
  job_id : String
  title : String
  company : String
  about_company_text : String
  card_applied : Bool
  description : Option String
  has_easy_apply : Bool
  easy_apply_submits : Bool
  external_link : Option String
  rewrite_result : Option String
deriving DecidableEq, Repr

/-- The session state owned by `LinkedInApplier` (sets, counters, and the two
ledger files), plus a counter of `_handle_easy_apply` entries so that
"the form-fill state machine was invoked" is observable. -/
structure AppState where
  applied_jobs : List String
  rejected_jobs : List String
  blacklisted_companies : List String
  success_rows : List LedgerRow
  failure_rows : List LedgerRow
  easy_apply_count : Nat
  external_count : Nat
  failed_count : Nat
  skipped_count : Nat
  formfill_invocations : Nat
deriving DecidableEq, Repr

/-- A fresh process start: only the ledger-loaded applied set is populated. -/
def initialState (applied : List String) : AppState :=
  ⟨applied, [], [], [], [], 0, 0, 0, 0, 0⟩

/-! ### `LinkedInApplier.__init__` derived configuration -/

/-- `self.blacklisted_words`: the configured bad words minus `"backend"`. -/
def blacklisted_words (cfg : SearchConfig) : List String :=
  cfg.bad_words.filter (fun w => decide (lowerStr w ≠ "backend"))

/-- The hard-coded title terms unioned into `self._frontend_equivalents`. -/
def hardcoded_frontend_terms : List String :=
  ["Frontend Developer", "Arayüz Uygulama Geliştirme Uzmanı",
   "UI/UX Frontend Engineer", "UX/UI Design Specialist",
   "React Developer", "React.js Developer", "Next.js Developer"]

/-- `self._frontend_equivalents`: lower-cased search terms plus the
hard-coded frontend list (a set in Python; only membership is used). -/
def frontend_equivalents (cfg : SearchConfig) : List String :=
  cfg.search_terms.map lowerStr ++ hardcoded_frontend_terms.map lowerStr

/-- `LinkedInApplier._is_relevant_job_title`. -/
def is_relevant_job_title (cfg : SearchConfig) (job_title : String) : Bool :=
  (frontend_equivalents cfg).any (fun term => containsSub (lowerStr job_title) term)

/-- The title gate of `_process_single_job`: skip when `job_titles` is
configured non-empty and `_is_relevant_job_title` fails. -/
def titleSkipB (cfg : SearchConfig) (j : Job) : Bool :=
  !cfg.job_titles.isEmpty && !is_relevant_job_title cfg j.title

/-- The spec's own wording of the title-relevance rule (section 4.1 rule 3),
for comparison with the code gate: pass when the configured relevant-title
set is empty or the lower-cased title contains a configured term. -/
def specTitleGatePasses (cfg : SearchConfig) (title : String) : Bool :=
  cfg.job_titles.isEmpty
    || cfg.job_titles.any (fun t => containsSub (lowerStr title) (lowerStr t))

/-! ### Per-posting processing (`_process_single_job` and `_attempt_apply`) -/

/-- `scraper.check_blacklist` on the about-company text: good words bypass the
scan, otherwise the first configured bad word contained in it is returned. -/
def blacklistBadWord (cfg : SearchConfig) (j : Job) : Option String :=
  let about := lowerStr j.about_company_text
  if cfg.about_company_good_words.any (fun g => containsSub about (lowerStr g)) then none
  else cfg.about_company_bad_words.find? (fun b => containsSub about (lowerStr b))

/-- The description pass of `_process_single_job` (inputs as wired there). -/
def descResult (cfg : SearchConfig) (j : Job) : DescResult :=
  get_job_description j.description (blacklisted_words cfg) cfg.security_clearance
    cfg.did_masters cfg.current_experience

/-- `LinkedInApplier._rewrite_resume` outcome: `None` when the description is
unavailable/empty or no rewriter is configured, else the collaborator's
result. -/
def resumePath (has_rewriter : Bool) (j : Job) (d : DescResult) : Option String :=
  match d.job_description with
  | none => none
  | some dd => if dd = "" then none else if has_rewriter then j.rewrite_result else none

/-- `job_link` as built in `_process_single_job`. -/
def jobLink (j : Job) : String :=
  if j.job_id = "" then "" else "https://www.linkedin.com/jobs/view/" ++ j.job_id

/-- The pre-filter skip of `get_job_main_details` plus the duplicate check
(`if skip or job_id in self.applied_jobs`). -/
def preSkipB (s : AppState) (j : Job) : Bool :=
  decide (j.company ∈ s.blacklisted_companies)
    || decide (j.job_id ∈ s.rejected_jobs)
    || j.card_applied
    || decide (j.job_id ∈ s.applied_jobs)

/-- `skip_message or skip_reason or "Skipped job"`. -/
def skipLogMessage (d : DescResult) : String :=
  ((d.skip_message).orElse (fun _ => d.skip_reason)).getD "Skipped job"

/-- Failure-ledger message for a title skip. -/
def title_skip_msg : String := "Job title outside configured frontend equivalents."

/-- Failure-ledger message written by `_process_single_job`'s catch-all. -/
def unhandled_msg : String := "Unhandled exception during apply"

/-- Error text of the wrapped Easy-Apply failure (submit never clickable). -/
def easy_fail_msg : String := "Easy apply failed: Submit button was not clickable."

/-- Error text of the wrapped external-apply capture failure. -/
def external_fail_msg : String := "Failed to capture external application link"

/-- Whether `_attempt_apply` reaches one of its two success returns. -/
def attemptSucceedsB (j : Job) : Bool :=
  if j.has_easy_apply then j.easy_apply_submits else j.external_link.isSome

/-- Whether any filter of the chain (title gate, about-company blacklist,
description pass) rejects the posting.  All three read only the posting and
the configuration, never the session state. -/
def filteredB (cfg : SearchConfig) (j : Job) : Bool :=
  titleSkipB cfg j || (blacklistBadWord cfg j).isSome || (descResult cfg j).skip

/-- Did the posting get past every gate into the apply path? -/
def entersApplyPath (cfg : SearchConfig) (s : AppState) (j : Job) : Bool :=
  !preSkipB s j && !filteredB cfg j

/-- `LinkedInApplier._process_single_job` (with `_attempt_apply`,
`_handle_easy_apply` and `_handle_external_apply` inlined; interactive pauses
disabled as under `run_in_background`; the resume upload inside the modal is
environment-dependent and modelled as unavailable, so `_upload_resume`'s
`except` branch keeps `resume_used` unchanged).  Returns the boolean counted
toward `switch_number` and the updated session state.  A failed attempt logs
a failure row in `_attempt_apply`'s handler and a second one in
`_process_single_job`'s catch-all, and bumps `failed_count` in both. -/
def process_single_job (cfg : SearchConfig) (has_rewriter : Bool) (s : AppState)
    (j : Job) : Bool × AppState :=
  let link := jobLink j
  if preSkipB s j then (false, s)
  else if titleSkipB cfg j then
    (false, { s with
      failure_rows := s.failure_rows ++ [mkFailureRow j.title j.company link title_skip_msg none],
      skipped_count := s.skipped_count + 1,
      rejected_jobs := s.rejected_jobs ++ [j.job_id] })
  else
    match blacklistBadWord cfg j with
    | some bw =>
      (false, { s with
        failure_rows := s.failure_rows ++
          [mkFailureRow j.title j.company link
            ("Skipping " ++ j.company ++ " due to blacklisted term " ++ bw) none],
        skipped_count := s.skipped_count + 1,
        rejected_jobs := s.rejected_jobs ++ [j.job_id] })
    | none =>
      let d := descResult cfg j
      if d.skip then
        (false, { s with
          failure_rows := s.failure_rows ++
            [mkFailureRow j.title j.company link (skipLogMessage d) none],
          skipped_count := s.skipped_count + 1,
          rejected_jobs := s.rejected_jobs ++ [j.job_id] })
      else
        let rp := resumePath has_rewriter j d
        if j.has_easy_apply then
          if j.easy_apply_submits then
            (true, { s with
              success_rows := s.success_rows ++
                [mkSuccessRow j.title j.company link (some (rp.getD "Previous resume"))],
              easy_apply_count := s.easy_apply_count + 1,
              applied_jobs := s.applied_jobs ++ [j.job_id],
              formfill_invocations := s.formfill_invocations + 1 })
          else
            (false, { s with
              failure_rows := s.failure_rows ++
                [mkFailureRow j.title j.company link easy_fail_msg rp,
                 mkFailureRow j.title j.company link unhandled_msg rp],
              failed_count := s.failed_count + 2,
              formfill_invocations := s.formfill_invocations + 1 })
        else
          match j.external_link with
          | some u =>
            (true, { s with
              success_rows := s.success_rows ++
                [mkSuccessRow j.title j.company (if u = "" then link else u) rp],
              external_count := s.external_count + 1,
              applied_jobs := s.applied_jobs ++ [j.job_id] })
          | none =>
            (false, { s with
              failure_rows := s.failure_rows ++
                [mkFailureRow j.title j.company link external_fail_msg rp,
                 mkFailureRow j.title j.company link unhandled_msg rp],
              failed_count := s.failed_count + 2 })

/-- One pass of the orchestrator over a fixed result set, in scan order. -/
def run_pipeline (cfg : SearchConfig) (has_rewriter : Bool) (jobs : List Job)
    (s : AppState) : AppState :=
  jobs.foldl (fun st j => (process_single_job cfg has_rewriter st j).2) s

/-! ### The Easy-Apply answer-page loop counter (`_handle_easy_apply`) -/

/-- Observable state of the `while next_steps` loop. -/
structure EasyApplyLoopState where
  next_counter : Nat
  escalations : Nat
deriving DecidableEq, Repr

/-- One iteration of the loop: bump the counter; at 15, when
`pause_at_failed_question` is set and the UI is not headless, alert the
operator (counted in `escalations`) and reset the counter to 1. -/
def easy_apply_loop_step (pause_at_failed_question headless : Bool)
    (st : EasyApplyLoopState) : EasyApplyLoopState :=
  let c := st.next_counter + 1
  if 15 ≤ c && pause_at_failed_question && !headless then
    ⟨1, st.escalations + 1⟩
  else
    ⟨c, st.escalations⟩

/-- Iterate the loop `n` times under a "Next" affordance that never
disappears (the Review span never shows up, so every iteration goes around
again). -/
def easy_apply_loop_iter (pause_at_failed_question headless : Bool) :
    Nat → EasyApplyLoopState → EasyApplyLoopState
  | 0, st => st
  | n + 1, st =>
    easy_apply_loop_iter pause_at_failed_question headless n
      (easy_apply_loop_step pause_at_failed_question headless st)

/-! ### `modules/ai/resume_rewriter.py` -/

/-- The hard-coded sentence appended by `ResumeRewriter.rewrite` whenever the
job description mentions "backend". -/
def backend_line : String :=
  "I have foundational knowledge of backend development (basic API integrations in PHP) and am eager to grow further in full-stack contexts."

/-- `ResumeRewriter.rewrite`, returning the final Markdown text that gets
rendered when the rewrite succeeds (Python returns the PDF path; the
document's content is the Markdown modelled here).  `api_key = none`,
an empty base resume, a model failure (`model_output = none`) or a PDF
conversion failure (`pdf_ok = false`) all yield `none`. -/
def rewrite (api_key : Option String) (base_resume : String)
    (model_output : Option String) (pdf_ok : Bool)
    (job_title company job_description : String) : Option String :=
  let _ := job_title
  let _ := company
  match api_key with
  | none => none
  | some _ =>
    if base_resume = "" then none
    else
      match model_output with
      | none => none
      | some md0 =>
        let md1 :=
          if containsSub (lowerStr job_description) "backend" then
            if containsSub md0 backend_line then md0
            else rstripWS md0 ++ "\n\n" ++ backend_line
          else md0
        if pdf_ok then some md1 else none

/-! ### Concrete fixtures used by witnesses and counterexamples -/

/-- A configuration with every filter list empty and no experience limit. -/
def cfgOpen : SearchConfig :=
  { bad_words := [], about_company_bad_words := [], about_company_good_words := []
    search_terms := [], job_titles := [], security_clearance := false
    did_masters := false, current_experience := -1 }

/-- A posting with no Easy-Apply affordance whose external application link is
captured successfully; its trailing path segment is not numeric. -/
def jobExternal : Job :=
  { job_id := "123", title := "Frontend Developer", company := "Acme"
    about_company_text := "", card_applied := false
    description := some "Great frontend role", has_easy_apply := false
    easy_apply_submits := false
    external_link := some "https://jobs.acme.example/apply-now"
    rewrite_result := none }

/-- A posting applied to through Easy Apply (submit succeeds). -/
def jobEasy : Job :=
  { job_id := "456", title := "React Developer", company := "Beta"
    about_company_text := "", card_applied := false
    description := some "Nice role", has_easy_apply := true
    easy_apply_submits := true, external_link := none, rewrite_result := none }

/-- A posting whose Easy-Apply modal never reaches a clickable submit. -/
def jobEasyFail : Job :=
  { job_id := "789", title := "Next.js Developer", company := "Gamma"
    about_company_text := "", card_applied := false
    description := some "Some role", has_easy_apply := true
    easy_apply_submits := false, external_link := none, rewrite_result := none }

/-- Configuration whose only relevant-title term is "Accountant". -/
def cfgAccountant : SearchConfig :=
  { cfgOpen with job_titles := ["Accountant"] }

/-- A posting titled exactly like the configured relevant-title term. -/
def jobAccountant : Job :=
  { jobEasy with job_id := "321", title := "Accountant", company := "Ledger Inc" }

/-- Configuration whose only description bad word is "backend". -/
def cfgBackendBad : SearchConfig :=
  { cfgOpen with bad_words := ["backend"] }

/-- A posting whose description contains the configured bad word "backend". -/
def jobBackendDesc : Job :=
  { jobEasy with description := some "We build backend services" }

/-- Configuration whose only description bad word is "agencies". -/
def cfgAgencies : SearchConfig :=
  { cfgOpen with bad_words := ["agencies"] }

/-! ### Basic lemmas about the per-posting step -/

theorem run_pipeline_nil (cfg : SearchConfig) (hR : Bool) (s : AppState) :
    run_pipeline cfg hR [] s = s := rfl

theorem run_pipeline_cons (cfg : SearchConfig) (hR : Bool) (j : Job) (jobs : List Job)
    (s : AppState) :
    run_pipeline cfg hR (j :: jobs) s =
      run_pipeline cfg hR jobs (process_single_job cfg hR s j).2 := rfl

theorem process_preskip (cfg : SearchConfig) (hR : Bool) (s : AppState) (j : Job)
    (h : preSkipB s j = true) : process_single_job cfg hR s j = (false, s) := by
  simp [process_single_job, h]

theorem process_blacklisted_inv (cfg : SearchConfig) (hR : Bool) (s : AppState) (j : Job) :
    ((process_single_job cfg hR s j).2).blacklisted_companies = s.blacklisted_companies := by
  simp only [process_single_job]
  repeat' split
  all_goals rfl

theorem process_success_mono (cfg : SearchConfig) (hR : Bool) (s : AppState) (j : Job) :
    ∃ t, ((process_single_job cfg hR s j).2).success_rows = s.success_rows ++ t := by
  simp only [process_single_job]
  repeat' split
  all_goals
    first
      | exact ⟨[], (List.append_nil _).symm⟩
      | exact ⟨_, rfl⟩

theorem run_success_mem (cfg : SearchConfig) (hR : Bool) (r : LedgerRow) :
    ∀ (jobs : List Job) (s : AppState), r ∈ s.success_rows →
      r ∈ (run_pipeline cfg hR jobs s).success_rows := by
  intro jobs
  induction jobs with
  | nil => intro s h; exact h
  | cons j rest ih =>
    intro s h
    rw [run_pipeline_cons]
    apply ih
    obtain ⟨t, ht⟩ := process_success_mono cfg hR s j
    rw [ht]
    exact List.mem_append_left _ h

theorem preSkipB_true_iff (s : AppState) (j : Job) :
    preSkipB s j = true ↔
      j.company ∈ s.blacklisted_companies ∨ j.job_id ∈ s.rejected_jobs ∨
        j.card_applied = true ∨ j.job_id ∈ s.applied_jobs := by
  simp [preSkipB, Bool.or_eq_true, decide_eq_true_eq, or_assoc]

theorem preSkipB_false_iff (s : AppState) (j : Job) :
    preSkipB s j = false ↔
      j.company ∉ s.blacklisted_companies ∧ j.job_id ∉ s.rejected_jobs ∧
        j.card_applied = false ∧ j.job_id ∉ s.applied_jobs := by
  simp [preSkipB, Bool.or_eq_false_iff, decide_eq_false_iff_not, Bool.not_eq_true,
    and_assoc]

theorem filteredB_false_iff (cfg : SearchConfig) (j : Job) :
    filteredB cfg j = false ↔
      titleSkipB cfg j = false ∧ blacklistBadWord cfg j = none ∧
        (descResult cfg j).skip = false := by
  unfold filteredB
  cases hb : blacklistBadWord cfg j <;>
    simp [Bool.or_eq_false_iff, Option.isSome]

theorem process_filtered (cfg : SearchConfig) (hR : Bool) (s : AppState) (j : Job)
    (h1 : preSkipB s j = false) (h2 : filteredB cfg j = true) :
    ∃ msg, process_single_job cfg hR s j =
      (false, { s with
        failure_rows := s.failure_rows ++
          [mkFailureRow j.title j.company (jobLink j) msg none],
        skipped_count := s.skipped_count + 1,
        rejected_jobs := s.rejected_jobs ++ [j.job_id] }) := by
  by_cases ht : titleSkipB cfg j = true
  · exact ⟨title_skip_msg, by simp [process_single_job, h1, ht]⟩
  · rw [Bool.not_eq_true] at ht
    cases hb : blacklistBadWord cfg j with
    | some bw =>
      exact ⟨"Skipping " ++ j.company ++ " due to blacklisted term " ++ bw,
        by simp [process_single_job, h1, ht, hb]⟩
    | none =>
      have hd : (descResult cfg j).skip = true := by
        have := h2
        unfold filteredB at this
        simp [ht, hb] at this
        exact this
      exact ⟨skipLogMessage (descResult cfg j),
        by simp [process_single_job, h1, ht, hb, hd]⟩

theorem process_easy_success (cfg : SearchConfig) (hR : Bool) (s : AppState) (j : Job)
    (h1 : preSkipB s j = false) (ht : titleSkipB cfg j = false)
    (hb : blacklistBadWord cfg j = none) (hd : (descResult cfg j).skip = false)
    (he : j.has_easy_apply = true) (hs : j.easy_apply_submits = true) :
    process_single_job cfg hR s j =
      (true, { s with
        success_rows := s.success_rows ++
          [mkSuccessRow j.title j.company (jobLink j)
            (some ((resumePath hR j (descResult cfg j)).getD "Previous resume"))],
        easy_apply_count := s.easy_apply_count + 1,
        applied_jobs := s.applied_jobs ++ [j.job_id],
        formfill_invocations := s.formfill_invocations + 1 }) := by
  simp [process_single_job, h1, ht, hb, hd, he, hs]

theorem process_easy_fail (cfg : SearchConfig) (hR : Bool) (s : AppState) (j : Job)
    (h1 : preSkipB s j = false) (ht : titleSkipB cfg j = false)
    (hb : blacklistBadWord cfg j = none) (hd : (descResult cfg j).skip = false)
    (he : j.has_easy_apply = true) (hs : j.easy_apply_submits = false) :
    process_single_job cfg hR s j =
      (false, { s with
        failure_rows := s.failure_rows ++
          [mkFailureRow j.title j.company (jobLink j) easy_fail_msg
            (resumePath hR j (descResult cfg j)),
           mkFailureRow j.title j.company (jobLink j) unhandled_msg
            (resumePath hR j (descResult cfg j))],
        failed_count := s.failed_count + 2,
        formfill_invocations := s.formfill_invocations + 1 }) := by
  simp [process_single_job, h1, ht, hb, hd, he, hs]

theorem process_ext_success (cfg : SearchConfig) (hR : Bool) (s : AppState) (j : Job)
    (h1 : preSkipB s j = false) (ht : titleSkipB cfg j = false)
    (hb : blacklistBadWord cfg j = none) (hd : (descResult cfg j).skip = false)
    (he : j.has_easy_apply = false) (u : String) (hu : j.external_link = some u) :
    process_single_job cfg hR s j =
      (true, { s with
        success_rows := s.success_rows ++
          [mkSuccessRow j.title j.company (if u = "" then jobLink j else u)
            (resumePath hR j (descResult cfg j))],
        external_count := s.external_count + 1,
        applied_jobs := s.applied_jobs ++ [j.job_id] }) := by
  simp [process_single_job, h1, ht, hb, hd, he, hu]

theorem process_ext_fail (cfg : SearchConfig) (hR : Bool) (s : AppState) (j : Job)
    (h1 : preSkipB s j = false) (ht : titleSkipB cfg j = false)
    (hb : blacklistBadWord cfg j = none) (hd : (descResult cfg j).skip = false)
    (he : j.has_easy_apply = false) (hu : j.external_link = none) :
    process_single_job cfg hR s j =
      (false, { s with
        failure_rows := s.failure_rows ++
          [mkFailureRow j.title j.company (jobLink j) external_fail_msg
            (resumePath hR j (descResult cfg j)),
           mkFailureRow j.title j.company (jobLink j) unhandled_msg
            (resumePath hR j (descResult cfg j))],
        failed_count := s.failed_count + 2 }) := by
  simp [process_single_job, h1, ht, hb, hd, he, hu]

/-! ### Parsing the trailing path segment of a stored job URL -/

theorem splitAux_cons_ne (sep c : Char) (l acc : List Char) (h : ¬c = sep) :
    splitAux sep (c :: l) acc = splitAux sep l (c :: acc) := by
  simp [splitAux, h]

theorem splitAux_cons_eq (sep : Char) (l acc : List Char) :
    splitAux sep (sep :: l) acc = acc.reverse :: splitAux sep l [] := by
  simp [splitAux]

theorem splitAux_no_sep (sep : Char) :
    ∀ (ds acc : List Char), (∀ c ∈ ds, ¬c = sep) →
      splitAux sep ds acc = [acc.reverse ++ ds] := by
  intro ds
  induction ds with
  | nil => intro acc _; simp [splitAux]
  | cons c rest ih =>
    intro acc h
    rw [splitAux_cons_ne sep c rest acc (h c (List.mem_cons_self c rest))]
    rw [ih (c :: acc) (fun x hx => h x (List.mem_cons_of_mem c hx))]
    simp

theorem splitAux_ne_nil (sep : Char) :
    ∀ (l acc : List Char), splitAux sep l acc ≠ [] := by
  intro l
  induction l with
  | nil => intro acc; simp [splitAux]
  | cons c rest ih =>
    intro acc
    by_cases h : c = sep
    · subst h; rw [splitAux_cons_eq]; simp
    · rw [splitAux_cons_ne sep c rest acc h]; exact ih _

theorem getLastD_irrel {α : Type} (l : List α) (h : l ≠ []) (d d' : α) :
    l.getLastD d = l.getLastD d' := by
  cases l with
  | nil => exact absurd rfl h
  | cons a t => rfl

theorem splitAux_last_sep (sep : Char) (ds : List Char) (hds : ∀ c ∈ ds, ¬c = sep) :
    ∀ (xs acc : List Char),
      (splitAux sep (xs ++ sep :: ds) acc).getLastD [] = ds := by
  intro xs
  induction xs with
  | nil =>
    intro acc
    rw [List.nil_append, splitAux_cons_eq, splitAux_no_sep sep ds [] hds]
    simp
  | cons x xs' ih =>
    intro acc
    by_cases h : x = sep
    · rw [h, List.cons_append, splitAux_cons_eq, List.getLastD_cons]
      rw [getLastD_irrel _ (splitAux_ne_nil sep _ _) acc.reverse []]
      exact ih []
    · rw [List.cons_append, splitAux_cons_ne sep x _ acc h]
      exact ih (x :: acc)

theorem isdigitStr_iff (s : String) :
    isdigitStr s = true ↔ s.data ≠ [] ∧ ∀ c ∈ s.data, c.isDigit = true := by
  simp [isdigitStr, List.all_eq_true, List.isEmpty_iff]

/-- Digits are never `'/'`, so a purely numeric id survives `rstrip("/")`. -/
theorem digit_ne_slash (c : Char) (h : c.isDigit = true) : ¬c = '/' := by
  intro heq
  subst heq
  simp [Char.isDigit] at h

theorem rstripSlashes_no_trailing (pre id : String)
    (hne : id.data ≠ []) (hdig : ∀ c ∈ id.data, c.isDigit = true) :
    rstripSlashes (pre ++ id) = pre ++ id := by
  rw [String.ext_iff]
  show ((pre ++ id).data.reverse.dropWhile (fun c => c = '/')).reverse = (pre ++ id).data
  rw [String.data_append, List.reverse_append]
  obtain ⟨a, t, hat⟩ : ∃ a t, id.data.reverse = a :: t := by
    cases hr : id.data.reverse with
    | nil => exact absurd (List.reverse_eq_nil_iff.mp hr) hne
    | cons a t => exact ⟨a, t, rfl⟩
  have ha : ¬a = '/' := by
    apply digit_ne_slash
    apply hdig
    have : a ∈ id.data.reverse := by rw [hat]; exact List.mem_cons_self a t
    exact List.mem_reverse.mp this
  rw [hat, List.cons_append, List.dropWhile_cons]
  simp only [ha, decide_eq_true_eq, if_false]
  rw [← List.cons_append, ← hat, ← List.reverse_append, List.reverse_reverse,
    ← String.data_append]

/-- The URL prefix used by `jobLink`, without its trailing slash. -/
def view_url_stem : String := "https://www.linkedin.com/jobs/view"

theorem lastSegment_view (id : String) (h : isdigitStr id = true) :
    lastSegment ("https://www.linkedin.com/jobs/view/" ++ id) = id := by
  obtain ⟨hne, hdig⟩ := (isdigitStr_iff id).mp h
  unfold lastSegment
  rw [rstripSlashes_no_trailing _ id hne hdig]
  rw [String.ext_iff]
  show (splitAux '/' ("https://www.linkedin.com/jobs/view/" ++ id).data []).getLastD [] = id.data
  rw [String.data_append]
  have hsplit : ("https://www.linkedin.com/jobs/view/").data =
      view_url_stem.data ++ ['/'] := by decide
  rw [hsplit, List.append_assoc, List.singleton_append]
  exact splitAux_last_sep '/' id.data (fun c hc => digit_ne_slash c (hdig c hc))
    view_url_stem.data []

theorem jobLink_of_digits (j : Job) (h : isdigitStr j.job_id = true) :
    jobLink j = "https://www.linkedin.com/jobs/view/" ++ j.job_id ∧ jobLink j ≠ "" := by
  obtain ⟨hne, _⟩ := (isdigitStr_iff j.job_id).mp h
  have hid : ¬j.job_id = "" := by
    intro heq
    exact hne (by rw [heq])
  constructor
  · simp [jobLink, hid]
  · simp only [jobLink, hid, if_false]
    intro heq
    have := String.ext_iff.mp heq
    rw [String.data_append] at this
    have hpre : ("https://www.linkedin.com/jobs/view/").data ≠ [] := by decide
    exact List.append_ne_nil_of_left_ne_nil hpre _ this

theorem mem_load (rows : List LedgerRow) (r : LedgerRow) (hr : r ∈ rows)
    (h1 : r.job_url ≠ "") (h2 : isdigitStr (lastSegment r.job_url) = true) :
    lastSegment r.job_url ∈ load_previous_applications rows := by
  unfold load_previous_applications
  apply List.mem_map.mpr
  exact ⟨r, List.mem_filter.mpr ⟨hr, by simp [h1, h2]⟩, rfl⟩

/-! ### Substring helper lemmas -/

theorem isPrefixL_refl : ∀ l : List Char, isPrefixL l l = true := by
  intro l
  induction l with
  | nil => rfl
  | cons a t ih => simp [isPrefixL, ih]

theorem substrL_append_self (n : List Char) :
    ∀ pre : List Char, substrL n (pre ++ n) = true := by
  intro pre
  induction pre with
  | nil =>
    cases n with
    | nil => rfl
    | cons a t =>
      show substrL (a :: t) (a :: t) = true
      simp [substrL, isPrefixL_refl]
  | cons c pre' ih =>
    show substrL n (c :: (pre' ++ n)) = true
    simp [substrL, ih]

theorem containsSub_append_self (pre needle : String) :
    containsSub (pre ++ needle) needle = true := by
  unfold containsSub
  rw [String.data_append]
  exact substrL_append_self needle.data pre.data

theorem entersApplyPath_iff (cfg : SearchConfig) (s : AppState) (j : Job) :
    entersApplyPath cfg s j = true ↔
      preSkipB s j = false ∧ filteredB cfg j = false := by
  simp [entersApplyPath, Bool.and_eq_true, Bool.not_eq_true']

/-! ### Claim theorems -/

set_option maxRecDepth 8192 in
/-- Claim C5 counterexample: contrary to the claim, the extraction function
raises a `ValueError` on `"50 years"` (it does not quietly ignore the match),
and on `"no experience mentioned"` the requirement comes out as the integer 0,
not as unknown. -/
theorem C5_counterexample :
    extract_years_of_experience "50 years" = Except.error () ∧
    (get_job_description (some "no experience mentioned") [] false false (-1)).experience_required
      = some 0 :=
  ⟨rfl, rfl⟩

set_option maxRecDepth 8192 in
/-- Claim C5 (amended): the extraction returns the maximum pattern-matched
integer that is at most 40 (`"Requires 7 years"` gives 7, `"(3) - 5+ years"`
gives 3 — the captured group, which need not immediately precede "years");
with no pattern match it returns 0 (`"no experience mentioned"`); when every
matched integer exceeds 40 it raises `ValueError` (`"50 years"`), which
`get_job_description` catches, leaving the requirement `Unknown` and the
posting unskipped. -/
theorem C5_amended :
    extract_years_of_experience "Requires 7 years" = Except.ok 7 ∧
    extract_years_of_experience "(3) - 5+ years" = Except.ok 3 ∧
    extract_years_of_experience "no experience mentioned" = Except.ok 0 ∧
    extract_years_of_experience "50 years" = Except.error () ∧
    get_job_description (some "50 years") [] false false 3 =
      ⟨some "50 years", none, false, none, none⟩ :=
  ⟨rfl, rfl, rfl, rfl, rfl⟩

set_option maxRecDepth 8192 in
/-- Claim C6: with a "Next" affordance that never disappears and interactive
mode enabled, the form-fill loop counter reaches the threshold 15 on the 15th
iteration, at which point the operator escalation fires exactly once and the
counter is reset (to 1); without interactive mode no escalation fires. -/
theorem C6_loop_escalates_at_15 :
    (easy_apply_loop_iter true false 14 ⟨0, 0⟩).escalations = 0 ∧
    (easy_apply_loop_iter true false 14 ⟨0, 0⟩).next_counter = 14 ∧
    (easy_apply_loop_iter true false 15 ⟨0, 0⟩).escalations = 1 ∧
    (easy_apply_loop_iter true false 15 ⟨0, 0⟩).next_counter = 1 ∧
    (easy_apply_loop_iter true true 30 ⟨0, 0⟩).escalations = 0 :=
  ⟨rfl, rfl, rfl, rfl, rfl⟩

set_option maxRecDepth 8192 in
/-- Claim C9: with current experience 3 and no masters, a description
requiring 5 years is skipped as over-experienced; with masters configured and
"master" occurring in the description, the bound becomes 3+2 and the same
requirement proceeds. -/
theorem C9_masters_bonus :
    (get_job_description (some "Requires 5 years of work.") [] false false 3).skip = true ∧
    (get_job_description (some "Requires 5 years of work.") [] false false 3).skip_reason =
      some "Required experience too high" ∧
    (get_job_description (some "Master's degree preferred. Requires 5 years of work.")
        [] false true 3).skip = false :=
  ⟨rfl, rfl, rfl⟩

theorem get_job_description_badword (d : String) (bw : List String) (cl ms : Bool)
    (cur : Int) (u : String)
    (hu : bw.find? (fun w => containsSub (lowerStr d) (lowerStr w)) = some u) :
    (get_job_description (some d) bw cl ms cur).skip = true ∧
    (get_job_description (some d) bw cl ms cur).skip_reason =
      some "Found bad word in job description" := by
  constructor <;>
  · simp only [get_job_description, hu]
    cases hx : extract_years_of_experience d <;> simp

set_option maxRecDepth 8192 in
/-- Claim C1 counterexample: "backend" is silently removed from the configured
bad-word list by `LinkedInApplier.__init__`, so a description containing the
configured bad word "backend" is not skipped at all. -/
theorem C1_counterexample :
    "backend" ∈ cfgBackendBad.bad_words ∧
    containsSub (lowerStr "We build backend services") (lowerStr "backend") = true ∧
    (descResult cfgBackendBad jobBackendDesc).skip = false := by
  refine ⟨?_, ?_, ?_⟩ <;> decide

/-- Claim C1 (amended): for every configured bad word other than "backend"
(case-insensitively), a description containing it at any case variation is
skipped with reason "Found bad word in job description" — in particular the
verdict is the bad-word one and never the experience one, for every masters /
clearance / current-experience configuration, showing the bad-word check is
evaluated before the experience-requirement check. -/
theorem C1_amended (cfg : SearchConfig) (desc w : String) (cl ms : Bool) (cur : Int)
    (hw : w ∈ cfg.bad_words) (hnb : lowerStr w ≠ "backend")
    (hc : containsSub (lowerStr desc) (lowerStr w) = true) :
    (get_job_description (some desc) (blacklisted_words cfg) cl ms cur).skip = true ∧
    (get_job_description (some desc) (blacklisted_words cfg) cl ms cur).skip_reason =
      some "Found bad word in job description" := by
  have hmem : w ∈ blacklisted_words cfg :=
    List.mem_filter.mpr ⟨hw, by simp [hnb]⟩
  have hfind : ((blacklisted_words cfg).find?
      (fun x => containsSub (lowerStr desc) (lowerStr x))).isSome = true :=
    List.find?_isSome.mpr ⟨w, hmem, hc⟩
  obtain ⟨u, hu⟩ := Option.isSome_iff_exists.mp hfind
  exact get_job_description_badword desc (blacklisted_words cfg) cl ms cur u hu

set_option maxRecDepth 8192 in
/-- Concrete instance of `C1_amended` at a configured word "agencies". -/
theorem C1_witness :
    (get_job_description (some "No agencies please") (blacklisted_words cfgAgencies)
        false false (-1)).skip = true ∧
    (get_job_description (some "No agencies please") (blacklisted_words cfgAgencies)
        false false (-1)).skip_reason = some "Found bad word in job description" :=
  C1_amended cfgAgencies "No agencies please" "agencies" false false (-1)
    (by decide) (by decide) (by decide)

set_option maxRecDepth 8192 in
/-- Claim C4 counterexample: with `job_titles = ["Accountant"]` configured and
no search terms, the title "Accountant" contains a configured term (so per the
claim the posting should proceed), yet the code's gate skips it, because the
gate matches against the hard-coded frontend-equivalents set instead of the
configured terms. -/
theorem C4_counterexample :
    titleSkipB cfgAccountant jobAccountant = true ∧
    specTitleGatePasses cfgAccountant jobAccountant.title = true := by
  refine ⟨?_, ?_⟩ <;> decide

/-- Claim C4 (amended): a posting passes the title gate iff the configured
`job_titles` set is empty (no restriction) or the lower-cased title contains
one of the lower-cased search terms or one of the seven hard-coded frontend
title terms — the configured `job_titles` only arm the gate, they are not the
match set. -/
theorem C4_amended (cfg : SearchConfig) (j : Job) :
    titleSkipB cfg j = false ↔
      cfg.job_titles = [] ∨
        ∃ term ∈ frontend_equivalents cfg,
          containsSub (lowerStr j.title) term = true := by
  simp [titleSkipB, is_relevant_job_title, List.any_eq_true, List.isEmpty_iff]
  tauto

set_option maxRecDepth 8192 in
/-- Claim C3 counterexample: a posting that passed all filters and whose
Easy-Apply attempt fails receives two ledger entries, not exactly one. -/
theorem C3_counterexample :
    (process_single_job cfgOpen false (initialState []) jobEasyFail).2.success_rows.length
      = 0 ∧
    (process_single_job cfgOpen false (initialState []) jobEasyFail).2.failure_rows.length
      = 2 := by
  refine ⟨?_, ?_⟩ <;> decide

/-- Claim C3 (amended): for every posting that enters the apply path, a
successful attempt writes exactly one (success) ledger row, while a failed
attempt writes exactly two failure rows — one from `_attempt_apply`'s handler
with the error text and one from `_process_single_job`'s catch-all. -/
theorem C3_amended (cfg : SearchConfig) (hR : Bool) (s : AppState) (j : Job)
    (h : entersApplyPath cfg s j = true) :
    (attemptSucceedsB j = true →
      (process_single_job cfg hR s j).2.success_rows.length = s.success_rows.length + 1 ∧
      (process_single_job cfg hR s j).2.failure_rows = s.failure_rows) ∧
    (attemptSucceedsB j = false →
      (process_single_job cfg hR s j).2.failure_rows.length = s.failure_rows.length + 2 ∧
      (process_single_job cfg hR s j).2.success_rows = s.success_rows) := by
  obtain ⟨h1, hf⟩ := (entersApplyPath_iff cfg s j).mp h
  obtain ⟨ht, hb, hd⟩ := (filteredB_false_iff cfg j).mp hf
  by_cases he : j.has_easy_apply = true
  · by_cases hsub : j.easy_apply_submits = true
    · rw [process_easy_success cfg hR s j h1 ht hb hd he hsub]
      constructor
      · intro _; simp
      · intro hfalse; simp [attemptSucceedsB, he, hsub] at hfalse
    · rw [Bool.not_eq_true] at hsub
      rw [process_easy_fail cfg hR s j h1 ht hb hd he hsub]
      constructor
      · intro htrue; simp [attemptSucceedsB, he, hsub] at htrue
      · intro _; simp
  · rw [Bool.not_eq_true] at he
    cases hu : j.external_link with
    | some u =>
      rw [process_ext_success cfg hR s j h1 ht hb hd he u hu]
      constructor
      · intro _; simp
      · intro hfalse; simp [attemptSucceedsB, he, hu] at hfalse
    | none =>
      rw [process_ext_fail cfg hR s j h1 ht hb hd he hu]
      constructor
      · intro htrue; simp [attemptSucceedsB, he, hu] at htrue
      · intro _; simp

set_option maxRecDepth 8192 in
/-- Concrete instance of `C3_amended`: one success row for a successful
Easy-Apply attempt. -/
theorem C3_witness :
    (process_single_job cfgOpen false (initialState []) jobEasy).2.success_rows.length =
      (initialState []).success_rows.length + 1 ∧
    (process_single_job cfgOpen false (initialState []) jobEasy).2.failure_rows =
      (initialState []).failure_rows :=
  (C3_amended cfgOpen false (initialState []) jobEasy (by decide)).1 (by decide)

set_option maxRecDepth 8192 in
/-- Claim C8 counterexample: a title-gate skip is recorded in the failure
ledger (one `log_failure` row), contrary to "never recorded as an
error/failure outcome". -/
theorem C8_counterexample :
    (process_single_job cfgAccountant false (initialState []) jobAccountant).2.failure_rows.length
      = 1 ∧
    (process_single_job cfgAccountant false (initialState []) jobAccountant).2.failed_count
      = 0 ∧
    (process_single_job cfgAccountant false (initialState []) jobAccountant).2.skipped_count
      = 1 := by
  refine ⟨?_, ?_, ?_⟩ <;> decide

/-- Claim C8 (amended): every skip verdict (title gate, about-company
blacklist, or description pass) is recorded as exactly one failure-ledger row
carrying the skip reason; it is counted in `skipped_count` rather than
`failed_count`, no success row is written, and the posting is not applied
to. -/
theorem C8_amended (cfg : SearchConfig) (hR : Bool) (s : AppState) (j : Job)
    (h1 : preSkipB s j = false) (h2 : filteredB cfg j = true) :
    (process_single_job cfg hR s j).1 = false ∧
    (process_single_job cfg hR s j).2.success_rows = s.success_rows ∧
    (process_single_job cfg hR s j).2.failed_count = s.failed_count ∧
    (process_single_job cfg hR s j).2.skipped_count = s.skipped_count + 1 ∧
    (process_single_job cfg hR s j).2.failure_rows.length = s.failure_rows.length + 1 := by
  obtain ⟨msg, hmsg⟩ := process_filtered cfg hR s j h1 h2
  rw [hmsg]
  simp

set_option maxRecDepth 8192 in
/-- Concrete instance of `C8_amended` at the title-gate skip. -/
theorem C8_witness :
    (process_single_job cfgAccountant false (initialState []) jobAccountant).1 = false ∧
    (process_single_job cfgAccountant false (initialState []) jobAccountant).2.success_rows =
      (initialState []).success_rows ∧
    (process_single_job cfgAccountant false (initialState []) jobAccountant).2.failed_count =
      (initialState []).failed_count ∧
    (process_single_job cfgAccountant false (initialState []) jobAccountant).2.skipped_count =
      (initialState []).skipped_count + 1 ∧
    (process_single_job cfgAccountant false (initialState []) jobAccountant).2.failure_rows.length =
      (initialState []).failure_rows.length + 1 :=
  C8_amended cfgAccountant false (initialState []) jobAccountant (by decide) (by decide)

set_option maxRecDepth 8192 in
/-- Claim C7 counterexample: a successful external apply stores the captured
external URL, whose trailing segment is not numeric, so reloading the ledger
does not make `wasApplied` true for the job's identifier. -/
theorem C7_counterexample :
    (process_single_job cfgOpen false (initialState []) jobExternal).1 = true ∧
    wasApplied (process_single_job cfgOpen false (initialState []) jobExternal).2.success_rows
      jobExternal.job_id = false := by
  refine ⟨?_, ?_⟩ <;> decide

/-- Claim C7 (amended): for every Easy-Apply success whose job identifier is
purely numeric, the stored `job_url` is the LinkedIn view URL ending in the
identifier, so reloading the ledger fresh makes `wasApplied` true for it. -/
theorem C7_amended (cfg : SearchConfig) (hR : Bool) (s : AppState) (j : Job)
    (he : j.has_easy_apply = true) (hd : isdigitStr j.job_id = true)
    (hs : (process_single_job cfg hR s j).1 = true) :
    wasApplied (process_single_job cfg hR s j).2.success_rows j.job_id = true := by
  by_cases h1 : preSkipB s j = true
  · rw [process_preskip cfg hR s j h1] at hs
    simp at hs
  · rw [Bool.not_eq_true] at h1
    by_cases hf : filteredB cfg j = true
    · obtain ⟨msg, hm⟩ := process_filtered cfg hR s j h1 hf
      rw [hm] at hs
      simp at hs
    · rw [Bool.not_eq_true] at hf
      obtain ⟨ht, hb, hdk⟩ := (filteredB_false_iff cfg j).mp hf
      by_cases hsub : j.easy_apply_submits = true
      · rw [process_easy_success cfg hR s j h1 ht hb hdk he hsub]
        simp only [wasApplied, decide_eq_true_eq]
        have hlink := jobLink_of_digits j hd
        have hseg : lastSegment (jobLink j) = j.job_id := by
          rw [hlink.1]
          exact lastSegment_view j.job_id hd
        have hmem : mkSuccessRow j.title j.company (jobLink j)
            (some ((resumePath hR j (descResult cfg j)).getD "Previous resume")) ∈
            s.success_rows ++
              [mkSuccessRow j.title j.company (jobLink j)
                (some ((resumePath hR j (descResult cfg j)).getD "Previous resume"))] :=
          List.mem_append_right _ (List.mem_singleton.mpr rfl)
        have hload := mem_load _ _ hmem (by simpa [mkSuccessRow] using hlink.2)
          (by simpa [mkSuccessRow, hseg] using hd)
        simpa [mkSuccessRow, hseg] using hload
      · rw [Bool.not_eq_true] at hsub
        rw [process_easy_fail cfg hR s j h1 ht hb hdk he hsub] at hs
        simp at hs

set_option maxRecDepth 8192 in
/-- Concrete instance of `C7_amended` at a numeric-id Easy-Apply success. -/
theorem C7_witness :
    wasApplied (process_single_job cfgOpen false (initialState []) jobEasy).2.success_rows
      jobEasy.job_id = true :=
  C7_amended cfgOpen false (initialState []) jobEasy (by decide) (by decide) (by decide)

/-- Claim C10: whenever the rewrite succeeds and the job description contains
"backend" in any case, the final resume Markdown contains the hard-coded
backend-knowledge sentence — unconditionally, with no configuration gating
it. -/
theorem C10_theorem (api : Option String) (base : String) (mo : Option String)
    (pdf : Bool) (jt c jd md : String)
    (hjd : containsSub (lowerStr jd) "backend" = true)
    (hres : rewrite api base mo pdf jt c jd = some md) :
    containsSub md backend_line = true := by
  cases api with
  | none => simp [rewrite] at hres
  | some k =>
    by_cases hb : base = ""
    · simp [rewrite, hb] at hres
    · cases mo with
      | none => simp [rewrite, hb] at hres
      | some md0 =>
        cases pdf with
        | false => simp [rewrite, hb] at hres
        | true =>
          simp only [rewrite, hb, hjd, if_false, if_true, Option.some.injEq] at hres
          by_cases hin : containsSub md0 backend_line = true
          · rw [if_pos hin] at hres
            rw [← hres]
            exact hin
          · rw [Bool.not_eq_true] at hin
            rw [if_neg (by simp [hin])] at hres
            rw [← hres]
            exact containsSub_append_self (rstripWS md0 ++ "\n\n") backend_line

set_option maxRecDepth 8192 in
/-- Concrete instance of `C10_theorem`. -/
theorem C10_witness :
    containsSub (rstripWS "MD RESUME" ++ "\n\n" ++ backend_line) backend_line = true :=
  C10_theorem (some "k") "base resume" (some "MD RESUME") true "Title" "Co"
    "Backend developer role" (rstripWS "MD RESUME" ++ "\n\n" ++ backend_line)
    (by decide) (by decide)

/-- Two-run correspondence: if the second run starts with every identifier of
`A` in its applied set, where `A` covers everything loadable from the first
run's final success ledger, and the session sets of the two runs are related
as stated, then — provided every posting is an Easy-Apply one with a numeric
identifier — the second run produces no success rows at all. -/
theorem run_twice_aux (cfg : SearchConfig) (hR : Bool) :
    ∀ (rest : List Job) (s₁ s₂ : AppState) (A : List String),
      (∀ j ∈ rest, j.has_easy_apply = true ∧ isdigitStr j.job_id = true) →
      (∀ id ∈ load_previous_applications
          ((run_pipeline cfg hR rest s₁).success_rows), id ∈ A) →
      (∀ id ∈ A, id ∈ s₂.applied_jobs) →
      s₂.success_rows = [] →
      (∀ id ∈ s₂.rejected_jobs, id ∈ s₁.rejected_jobs) →
      (∀ id ∈ s₁.rejected_jobs, id ∈ s₂.rejected_jobs ∨ id ∈ s₂.applied_jobs) →
      (∀ id ∈ s₁.applied_jobs, id ∈ s₂.applied_jobs) →
      s₁.blacklisted_companies = [] →
      s₂.blacklisted_companies = [] →
      (run_pipeline cfg hR rest s₂).success_rows = [] := by
  intro rest
  induction rest with
  | nil =>
    intro s₁ s₂ A _ _ _ hsucc _ _ _ _ _
    simpa [run_pipeline] using hsucc
  | cons j rest ih =>
    intro s₁ s₂ A hjobs hA h2 hsucc h3 h4 h5 hbl1 hbl2
    obtain ⟨hje, hjd⟩ := hjobs j (List.mem_cons_self j rest)
    have hjobs' : ∀ j' ∈ rest, j'.has_easy_apply = true ∧ isdigitStr j'.job_id = true :=
      fun j' hj' => hjobs j' (List.mem_cons_of_mem j hj')
    have hA' : ∀ id ∈ load_previous_applications
        ((run_pipeline cfg hR rest (process_single_job cfg hR s₁ j).2).success_rows),
        id ∈ A := by
      intro id hid
      apply hA
      rw [run_pipeline_cons]
      exact hid
    rw [run_pipeline_cons]
    by_cases hp2 : preSkipB s₂ j = true
    · rw [process_preskip cfg hR s₂ j hp2]
      by_cases hp1 : preSkipB s₁ j = true
      · rw [process_preskip cfg hR s₁ j hp1] at hA'
        exact ih s₁ s₂ A hjobs' hA' h2 hsucc h3 h4 h5 hbl1 hbl2
      · rw [Bool.not_eq_true] at hp1
        obtain ⟨hc1, hr1, hcard, ha1⟩ := (preSkipB_false_iff s₁ j).mp hp1
        have hidApp2 : j.job_id ∈ s₂.applied_jobs := by
          rcases (preSkipB_true_iff s₂ j).mp hp2 with hco | hre | hca | hap
          · rw [hbl2] at hco; exact absurd hco (List.not_mem_nil _)
          · exact absurd (h3 _ hre) hr1
          · rw [hcard] at hca; exact absurd hca (by simp)
          · exact hap
        by_cases hfil : filteredB cfg j = true
        · obtain ⟨msg, hmsg⟩ := process_filtered cfg hR s₁ j hp1 hfil
          refine ih (process_single_job cfg hR s₁ j).2 s₂ A hjobs' hA' h2 hsucc ?_ ?_ ?_ ?_ hbl2
          · intro id hid
            rw [hmsg]
            exact List.mem_append_left _ (h3 id hid)
          · intro id hid
            rw [hmsg] at hid
            rcases List.mem_append.mp hid with h | h
            · exact h4 id h
            · rw [List.mem_singleton] at h
              subst h
              exact Or.inr hidApp2
          · intro id hid
            rw [hmsg] at hid
            exact h5 id hid
          · rw [hmsg]
            exact hbl1
        · rw [Bool.not_eq_true] at hfil
          obtain ⟨ht, hbw, hdk⟩ := (filteredB_false_iff cfg j).mp hfil
          by_cases hsub : j.easy_apply_submits = true
          · have hmsg := process_easy_success cfg hR s₁ j hp1 ht hbw hdk hje hsub
            refine ih (process_single_job cfg hR s₁ j).2 s₂ A hjobs' hA' h2 hsucc ?_ ?_ ?_ ?_ hbl2
            · intro id hid
              rw [hmsg]
              exact h3 id hid
            · intro id hid
              rw [hmsg] at hid
              exact h4 id hid
            · intro id hid
              rw [hmsg] at hid
              rcases List.mem_append.mp hid with h | h
              · exact h5 id h
              · rw [List.mem_singleton] at h
                subst h
                exact hidApp2
            · rw [hmsg]
              exact hbl1
          · rw [Bool.not_eq_true] at hsub
            have hmsg := process_easy_fail cfg hR s₁ j hp1 ht hbw hdk hje hsub
            refine ih (process_single_job cfg hR s₁ j).2 s₂ A hjobs' hA' h2 hsucc ?_ ?_ ?_ ?_ hbl2
            · intro id hid
              rw [hmsg]
              exact h3 id hid
            · intro id hid
              rw [hmsg] at hid
              exact h4 id hid
            · intro id hid
              rw [hmsg] at hid
              exact h5 id hid
            · rw [hmsg]
              exact hbl1
    · rw [Bool.not_eq_true] at hp2
      obtain ⟨hc2, hr2, hcard2, ha2⟩ := (preSkipB_false_iff s₂ j).mp hp2
      have hp1 : preSkipB s₁ j = false := by
        apply (preSkipB_false_iff s₁ j).mpr
        refine ⟨?_, ?_, hcard2, ?_⟩
        · rw [hbl1]; exact List.not_mem_nil _
        · intro hre
          rcases h4 _ hre with h | h
          · exact hr2 h
          · exact ha2 h
        · intro hap
          exact ha2 (h5 _ hap)
      by_cases hfil : filteredB cfg j = true
      · obtain ⟨m1, hm1⟩ := process_filtered cfg hR s₁ j hp1 hfil
        obtain ⟨m2, hm2⟩ := process_filtered cfg hR s₂ j hp2 hfil
        rw [hm2]
        refine ih (process_single_job cfg hR s₁ j).2 _ A hjobs' hA' ?_ ?_ ?_ ?_ ?_ ?_ ?_
        · intro id hid
          exact h2 id hid
        · exact hsucc
        · intro id hid
          rw [hm1]
          have hid' : id ∈ s₂.rejected_jobs ++ [j.job_id] := hid
          rcases List.mem_append.mp hid' with h | h
          · exact List.mem_append_left _ (h3 id h)
          · exact List.mem_append_right _ h
        · intro id hid
          rw [hm1] at hid
          rcases List.mem_append.mp hid with h | h
          · rcases h4 id h with hh | hh
            · exact Or.inl (List.mem_append_left _ hh)
            · exact Or.inr hh
          · exact Or.inl (List.mem_append_right _ h)
        · intro id hid
          rw [hm1] at hid
          exact h5 id hid
        · rw [hm1]
          exact hbl1
        · exact hbl2
      · rw [Bool.not_eq_true] at hfil
        obtain ⟨ht, hbw, hdk⟩ := (filteredB_false_iff cfg j).mp hfil
        by_cases hsub : j.easy_apply_submits = true
        · exfalso
          have hm1 := process_easy_success cfg hR s₁ j hp1 ht hbw hdk hje hsub
          have hlink := jobLink_of_digits j hjd
          have hrowmem1 :
              mkSuccessRow j.title j.company (jobLink j)
                (some ((resumePath hR j (descResult cfg j)).getD "Previous resume")) ∈
              ((process_single_job cfg hR s₁ j).2).success_rows := by
            rw [hm1]
            exact List.mem_append_right _ (List.mem_singleton.mpr rfl)
          have hrowmemF :
              mkSuccessRow j.title j.company (jobLink j)
                (some ((resumePath hR j (descResult cfg j)).getD "Previous resume")) ∈
              (run_pipeline cfg hR (j :: rest) s₁).success_rows := by
            rw [run_pipeline_cons]
            exact run_success_mem cfg hR _ rest _ hrowmem1
          have hseg : lastSegment (mkSuccessRow j.title j.company (jobLink j)
              (some ((resumePath hR j (descResult cfg j)).getD "Previous resume"))).job_url
              = j.job_id := by
            show lastSegment (jobLink j) = j.job_id
            rw [hlink.1]
            exact lastSegment_view _ hjd
          have hload := mem_load _ _ hrowmemF
            (by show jobLink j ≠ ""; exact hlink.2)
            (by rw [hseg]; exact hjd)
          rw [hseg] at hload
          exact ha2 (h2 _ (hA _ hload))
        · rw [Bool.not_eq_true] at hsub
          have hm1 := process_easy_fail cfg hR s₁ j hp1 ht hbw hdk hje hsub
          have hm2 := process_easy_fail cfg hR s₂ j hp2 ht hbw hdk hje hsub
          rw [hm2]
          refine ih (process_single_job cfg hR s₁ j).2 _ A hjobs' hA' ?_ ?_ ?_ ?_ ?_ ?_ ?_
          · intro id hid
            exact h2 id hid
          · exact hsucc
          · intro id hid
            rw [hm1]
            exact h3 id hid
          · intro id hid
            rw [hm1] at hid
            exact h4 id hid
          · intro id hid
            rw [hm1] at hid
            exact h5 id hid
          · rw [hm1]
            exact hbl1
          · exact hbl2

set_option maxRecDepth 8192 in
/-- Claim C2 counterexample: one posting with no Easy-Apply affordance is
applied to externally on the first run; the stored `job_url` is the captured
external link, whose trailing segment is not numeric, so the reloaded ledger
is empty and the second identical run produces one new success — not zero. -/
theorem C2_counterexample :
    (run_pipeline cfgOpen false [jobExternal]
      (initialState (load_previous_applications
        (run_pipeline cfgOpen false [jobExternal]
          (initialState [])).success_rows))).success_rows.length = 1 := by
  decide

/-- Claim C2 (amended): (1) for every posting whose identifier is in the
in-memory applied set (as loaded from the ledger at startup), processing
returns the duplicate skip immediately with the state untouched — no further
filtering, no ledger write, and no form-fill invocation; (2) the second of
two identical runs produces zero new successful applications, provided every
posting offers Easy Apply and has a purely numeric identifier (external
applies store the captured external URL instead of the job link, which
defeats the reload). -/
theorem C2_amended (cfg : SearchConfig) (hR : Bool) :
    (∀ (s : AppState) (j : Job), j.job_id ∈ s.applied_jobs →
      process_single_job cfg hR s j = (false, s)) ∧
    (∀ jobs : List Job,
      (∀ j ∈ jobs, j.has_easy_apply = true ∧ isdigitStr j.job_id = true) →
      (run_pipeline cfg hR jobs
        (initialState (load_previous_applications
          (run_pipeline cfg hR jobs (initialState [])).success_rows))).success_rows
        = []) := by
  constructor
  · intro s j h
    apply process_preskip
    exact (preSkipB_true_iff s j).mpr (Or.inr (Or.inr (Or.inr h)))
  · intro jobs hjobs
    refine run_twice_aux cfg hR jobs (initialState [])
      (initialState (load_previous_applications
        (run_pipeline cfg hR jobs (initialState [])).success_rows))
      (load_previous_applications
        (run_pipeline cfg hR jobs (initialState [])).success_rows)
      hjobs (fun id hid => hid) (fun id hid => hid) rfl ?_ ?_ ?_ rfl rfl
    · intro id hid
      exact absurd hid (List.not_mem_nil _)
    · intro id hid
      exact absurd hid (List.not_mem_nil _)
    · intro id hid
      exact absurd hid (List.not_mem_nil _)

set_option maxRecDepth 8192 in
/-- Concrete instance of `C2_amended`: a ledger-present identifier is
duplicate-skipped untouched, and a second Easy-Apply run yields no new
successes. -/
theorem C2_witness :
    process_single_job cfgOpen false (initialState ["456"]) jobEasy =
      (false, initialState ["456"]) ∧
    (run_pipeline cfgOpen false [jobEasy]
      (initialState (load_previous_applications
        (run_pipeline cfgOpen false [jobEasy]
          (initialState [])).success_rows))).success_rows = [] :=
  ⟨(C2_amended cfgOpen false).1 (initialState ["456"]) jobEasy (by decide),
   (C2_amended cfgOpen false).2 [jobEasy] (by decide)⟩

end AutoJobApplier
